import Mathlib

/-!
Verification of the QAP result-analysis pipeline (`src/plots2.py`, with the
sibling `src/plots.py` where the claims cite it).

Strings are modelled as `List Char`, the tabular dataset as a list of
records, and the on-disk `instances/*.sln` files as an
`Option (List (List Char))` (absent file / list of lines).  Pandas/numpy
floating-point arithmetic never raises on zero denominators; elementwise
division by zero yields `±inf` or `NaN`.  We model float values as the type
`PFloat`: an exact rational (finite values are modelled exactly, which is
what the spec's 1e-9 tolerance clauses are about), a signed infinity, or
NaN.
-/

namespace QAP

/-- Model of a pandas/numpy float value: finite (exact rational), signed
infinity, or NaN. -/
inductive PFloat where
  | fin (q : ℚ)
  | inf (pos : Bool)
  | nan
deriving DecidableEq

/-- Elementwise pandas/numpy division.  Never raises: a zero denominator
yields NaN (0/0) or a signed infinity, exactly as numpy float division
does. -/
def pdiv (a b : ℚ) : PFloat :=
  if b = 0 then
    if a = 0 then PFloat.nan
    else if 0 < a then PFloat.inf true
    else PFloat.inf false
  else PFloat.fin (a / b)

/-- Multiplying a pandas float by an exact rational constant (the `* 100`
in the derived-metric formulas). -/
def pscale (x : PFloat) (c : ℚ) : PFloat :=
  match x with
  | PFloat.fin q => PFloat.fin (q * c)
  | PFloat.inf s => if 0 < c then PFloat.inf s else if c = 0 then PFloat.nan else PFloat.inf (!s)
  | PFloat.nan => PFloat.nan

def PFloat.isNan : PFloat → Bool
  | PFloat.nan => true
  | _ => false

def PFloat.isPosInf : PFloat → Bool
  | PFloat.inf true => true
  | _ => false

def PFloat.isNegInf : PFloat → Bool
  | PFloat.inf false => true
  | _ => false

def PFloat.toRat : PFloat → ℚ
  | PFloat.fin q => q
  | _ => 0

/-- Pandas `mean` with the default `skipna=True`, as used by
`groupby(...).mean()` and `groupby(...).agg` in `create_summary_table`:
NaN entries are dropped (an all-NaN group means NaN); infinities are NOT
dropped and propagate into the mean (`+inf` and `-inf` together give
NaN, IEEE summation). -/
def pandasMean (xs : List PFloat) : PFloat :=
  let kept := xs.filter (fun x => !x.isNan)
  if kept.isEmpty then PFloat.nan
  else if kept.any (fun x => x.isPosInf) then
    (if kept.any (fun x => x.isNegInf) then PFloat.nan else PFloat.inf true)
  else if kept.any (fun x => x.isNegInf) then PFloat.inf false
  else PFloat.fin ((kept.map PFloat.toRat).sum / (kept.length : ℚ))

/-! ## Solution Parser (`clean_solution`, src/plots2.py lines 19-22,
src/plots.py lines 39-54) -/

/-- The whitespace characters of Python `str.split()` with no argument. -/
def isPyWhitespace (c : Char) : Bool :=
  c = ' ' ∨ c = '\t' ∨ c = '\n' ∨ c = '\r' ∨ c = '\x0b' ∨ c = '\x0c'

/-- The characters removed from both ends by Python `str.strip('[]')`. -/
def isStripChar (c : Char) : Bool :=
  c = '[' ∨ c = ']'

/-- Python `s.strip('[]')`: remove the characters `[` and `]` from both
ends of the string. -/
def stripBrackets (s : List Char) : List Char :=
  ((s.dropWhile isStripChar).reverse.dropWhile isStripChar).reverse

/-- Worker for Python `str.split()`: split on runs of whitespace, keeping
no empty tokens.  `acc` is the current token, reversed. -/
def splitWsAux : List Char → List Char → List (List Char)
  | [], acc => if acc.isEmpty then [] else [acc.reverse]
  | c :: rest, acc =>
    if isPyWhitespace c then
      if acc.isEmpty then splitWsAux rest [] else acc.reverse :: splitWsAux rest []
    else splitWsAux rest (c :: acc)

/-- Python `str.split()` with no argument. -/
def splitWs (s : List Char) : List (List Char) :=
  splitWsAux s []

/-- Value of an ASCII decimal digit character, if it is one. -/
def digitVal (c : Char) : Option ℕ :=
  if 48 ≤ c.toNat ∧ c.toNat ≤ 57 then some (c.toNat - 48) else none

/-- Accumulating decimal reading of a digit string; fails on the first
non-digit character. -/
def parseNatAux : List Char → ℕ → Option ℕ
  | [], acc => some acc
  | c :: rest, acc =>
    match digitVal c with
    | some d => parseNatAux rest (acc * 10 + d)
    | none => none

/-- Python `int(x)` on the tokens this pipeline feeds it: an optional `-`
sign followed by a nonempty run of ASCII digits.  Anything else raises
`ValueError`, modelled as `none`. -/
def parseInt (s : List Char) : Option ℤ :=
  match s with
  | [] => none
  | c :: rest =>
    if c = '-' then
      if rest.isEmpty then none
      else (parseNatAux rest 0).map (fun n => -(n : ℤ))
    else (parseNatAux (c :: rest) 0).map (fun n => (n : ℤ))

/-- The list comprehension `[int(x) for x in solution]`: sequential, the
first `ValueError` aborts the whole conversion. -/
def mapTokens : List (List Char) → Option (List ℤ)
  | [] => some []
  | t :: ts =>
    match parseInt t, mapTokens ts with
    | some z, some zs => some (z :: zs)
    | _, _ => none

/-- `clean_solution` (src/plots2.py lines 19-22): strip the brackets,
split on whitespace, convert every token with `int`. -/
def clean_solution (s : List Char) : Option (List ℤ) :=
  mapTokens (splitWs (stripBrackets s))

/-- The character of an ASCII decimal digit. -/
def digitChar (d : ℕ) : Char :=
  Char.ofNat (48 + d)

/-- Decimal digit string of a natural number (Python `str(n)` for
`n ≥ 0`), most significant digit first. -/
def natToChars (n : ℕ) : List Char :=
  if h : n < 10 then [digitChar n]
  else natToChars (n / 10) ++ [digitChar (n % 10)]
decreasing_by exact Nat.div_lt_self (by omega) (by omega)

/-- Python `str(z)` for an integer. -/
def intToChars (z : ℤ) : List Char :=
  if z < 0 then '-' :: natToChars z.natAbs else natToChars z.toNat

/-- Python `' '.join(tokens)`. -/
def joinTokens : List (List Char) → List Char
  | [] => []
  | [t] => t
  | t :: ts => t ++ ' ' :: joinTokens ts

/-- Re-encoding of a parsed solution into the same bracketed
space-separated textual form the parser consumes
(`'[' + ' '.join(str(x) for x in xs) + ']'`), used to state the
round-trip property of the Solution Parser. -/
def encodeSolution (xs : List ℤ) : List Char :=
  '[' :: joinTokens (xs.map intToChars) ++ [']']

/-! ## Best-Known Lookup (`load_optimal_solution`, src/plots2.py
lines 25-52; textually identical in src/plots.py lines 9-36) -/

/-- Result of one call of `load_optimal_solution`: the returned value
(`None` is modelled as `none`) and whether a console diagnostic was
printed. -/
structure LookupResult where
  result : Option (ℤ × List ℤ)
  logged : Bool
deriving DecidableEq

/-- The body of the `try` block after the length check: parse
`"size optimal_value"` from the first line (the tuple unpacking of
`map(int, ...)` raises `ValueError` unless there are exactly two tokens
and both convert), then every whitespace-separated token of the remaining
lines as the reference permutation.  `none` models an escaping
`ValueError`. -/
def parseSlnLines : List (List Char) → Option (ℤ × List ℤ)
  | [] => none
  | l0 :: rest =>
    match splitWs l0 with
    | [a, b] =>
      match parseInt a, parseInt b, mapTokens ((rest.map splitWs).flatten) with
      | some _, some opt, some perm => some (opt, perm)
      | _, _, _ => none
    | _ => none

/-- `load_optimal_solution` (src/plots2.py lines 25-52) over the modelled
file system: `file` is the content of `instances/<base>.sln` as a list of
lines, or `none` when the file is absent (`FileNotFoundError`).  The
absent-file and `ValueError` handlers both print a diagnostic and return
`None`; the `len(lines) < 2` early return prints nothing. -/
def load_optimal_solution (file : Option (List (List Char))) : LookupResult :=
  match file with
  | none => { result := none, logged := true }
  | some lines =>
    if lines.length < 2 then { result := none, logged := false }
    else
      match parseSlnLines lines with
      | some r => { result := some r, logged := false }
      | none => { result := none, logged := true }

/-! ## Metrics Deriver (`analyze_qap_results`, src/plots2.py
lines 54-74) -/

/-- One row of the input dataframe after the `Solution` column has been
cleaned (`main`, line 333): the required CSV columns.  Numeric columns
are pandas floats with exact values modelled in `ℚ`. -/
structure RunRecord where
  instName : String
  solver : String
  initialFitness : ℚ
  finalFitness : ℚ
  evaluations : ℚ
  timeMs : ℚ
  solution : List ℤ
deriving DecidableEq

/-- A row after `analyze_qap_results` has attached the three derived
columns. -/
structure DerivedRecord where
  instName : String
  solver : String
  initialFitness : ℚ
  finalFitness : ℚ
  evaluations : ℚ
  timeMs : ℚ
  solution : List ℤ
  gapToBest : PFloat
  improvementPercent : PFloat
  evalsPerSecond : PFloat
deriving DecidableEq

/-- `(row['FinalFitness'] - best) / best * 100` (src/plots2.py line 66);
`best` is the integer read from the `.sln` file. -/
def gapToBestCalc (finalFitness : ℚ) (best : ℤ) : PFloat :=
  pscale (pdiv (finalFitness - (best : ℚ)) (best : ℚ)) 100

/-- `(InitialFitness - FinalFitness) / InitialFitness * 100`
(src/plots2.py line 69). -/
def improvementPercent (initial final : ℚ) : PFloat :=
  pscale (pdiv (initial - final) initial) 100

/-- `Evaluations / (TimeMs / 1000)` (src/plots2.py line 72).  There is no
epsilon in the denominator. -/
def evalsPerSecond (evaluations timeMs : ℚ) : PFloat :=
  pdiv evaluations (timeMs / 1000)

/-- `df['Instance'].unique()`: distinct values in first-occurrence order.
`seen` holds the values already emitted. -/
def uniqueAux : List String → List String → List String
  | [], _ => []
  | x :: xs, seen =>
    if x ∈ seen then uniqueAux xs seen else x :: uniqueAux xs (x :: seen)

def uniqueList (l : List String) : List String :=
  uniqueAux l []

/-- The three derived columns attached to one row, given the
`best_solution_fitness` dict built by `analyze_qap_results`. -/
def deriveRow (bestFitness : String → ℤ) (r : RunRecord) : DerivedRecord :=
  { instName := r.instName
    solver := r.solver
    initialFitness := r.initialFitness
    finalFitness := r.finalFitness
    evaluations := r.evaluations
    timeMs := r.timeMs
    solution := r.solution
    gapToBest := gapToBestCalc r.finalFitness (bestFitness r.instName)
    improvementPercent := improvementPercent r.initialFitness r.finalFitness
    evalsPerSecond := evalsPerSecond r.evaluations r.timeMs }

/-- `analyze_qap_results` (src/plots2.py lines 54-74).  `slnFile i` is the
content of instance `i`'s `.sln` file (the modelled file system).  The
loop on lines 60-61 unpacks `load_optimal_solution(instance)` into two
variables; when any unique instance yields `None` that unpacking raises
`TypeError` (`cannot unpack non-sequence NoneType`), which nothing
catches — modelled as `Except.error ()`.  Otherwise all three derived
columns are added to every row. -/
def analyze_qap_results (slnFile : String → Option (List (List Char)))
    (df : List RunRecord) : Except Unit (List DerivedRecord) :=
  let instances := uniqueList (df.map RunRecord.instName)
  if instances.all (fun i => ((load_optimal_solution (slnFile i)).result).isSome) then
    Except.ok (df.map (deriveRow (fun i =>
      (((load_optimal_solution (slnFile i)).result).map Prod.fst).getD 0)))
  else Except.error ()

/-! ## Aggregator (`create_summary_table`, src/plots2.py lines 307-326,
and the `groupby(...).mean()` calls of the chart functions) -/

/-- The mean `ImprovementPercent` of one `(Instance, Solver)` group, as
computed by `df.groupby(['Instance', 'Solver']).agg(... 'mean' ...)` in
`create_summary_table` (src/plots2.py lines 312-320). -/
def meanImprovementForGroup (rows : List DerivedRecord)
    (instName solver : String) : PFloat :=
  pandasMean ((rows.filter (fun r =>
    r.instName == instName && r.solver == solver)).map DerivedRecord.improvementPercent)

/-! ## Report Renderer control flow (`main`, src/plots2.py
lines 328-347) -/

/-- `main` (src/plots2.py lines 336-344) calls the five chart functions
and `create_summary_table` as plain sequential statements with no
`try`/`except`; each call either returns or raises.  Modelling each named
output as an `Except` computation, this returns one flag per output:
whether that output was attempted.  An uncaught exception propagates, so
every output after the first raising one is never attempted. -/
def chartAttempts : List (Except String Unit) → List Bool
  | [] => []
  | Except.ok _ :: rest => true :: chartAttempts rest
  | Except.error _ :: rest => true :: rest.map (fun _ => false)

/-! ## Combined-chart normalization (`plot_initial_vs_final`,
src/plots2.py lines 126-149) -/

/-- Pandas `Series.min()` over a nonempty numeric column. -/
def seriesMin : List ℚ → ℚ
  | [] => 0
  | x :: xs => xs.foldl min x

/-- Pandas `Series.max()` over a nonempty numeric column. -/
def seriesMax : List ℚ → ℚ
  | [] => 0
  | x :: xs => xs.foldl max x

/-- The per-instance min-max normalization of the combined
initial-vs-final chart (src/plots2.py lines 133-142): with `mn`/`mx` the
instance-level min/max of the metric, each value `v` becomes
`(v - mn) / (mx - mn)` when `mx > mn` and `v / mx` otherwise.  Pandas
division never raises; `0 / 0` is NaN (see `pdiv`). -/
def normalizeValues (xs : List ℚ) : List PFloat :=
  let mn := seriesMin xs
  let mx := seriesMax xs
  xs.map (fun v => if mn < mx then PFloat.fin ((v - mn) / (mx - mn)) else pdiv v mx)

/-! ## Parser lemmas -/

theorem splitWsAux_token (t l acc : List Char)
    (h : ∀ c ∈ t, isPyWhitespace c = false) :
    splitWsAux (t ++ l) acc = splitWsAux l (t.reverse ++ acc) := by
  induction t generalizing acc with
  | nil => simp
  | cons c t ih =>
    have hc : isPyWhitespace c = false := h c (List.mem_cons_self c t)
    simp only [List.cons_append, splitWsAux, hc, Bool.false_eq_true, if_false,
      List.append_eq]
    rw [ih _ (fun d hd => h d (List.mem_cons_of_mem c hd))]
    simp

theorem splitWs_joinTokens (toks : List (List Char))
    (h : ∀ t ∈ toks, t ≠ [] ∧ ∀ c ∈ t, isPyWhitespace c = false) :
    splitWs (joinTokens toks) = toks := by
  induction toks with
  | nil => rfl
  | cons t ts ih =>
    obtain ⟨ht, hcs⟩ := h t (List.mem_cons_self t ts)
    cases ts with
    | nil =>
      show splitWsAux (joinTokens [t]) [] = [t]
      have hj : joinTokens [t] = t ++ [] := by simp [joinTokens]
      rw [hj, splitWsAux_token t [] [] hcs]
      simp [splitWsAux, ht]
    | cons t2 ts2 =>
      show splitWsAux (joinTokens (t :: t2 :: ts2)) [] = t :: t2 :: ts2
      have hj : joinTokens (t :: t2 :: ts2) = t ++ ' ' :: joinTokens (t2 :: ts2) := by
        simp [joinTokens]
      rw [hj, splitWsAux_token t _ [] hcs]
      have hne : (t.reverse ++ []).isEmpty = false := by
        simp [List.isEmpty_iff, ht]
      simp only [splitWsAux, show isPyWhitespace ' ' = true from rfl, if_true, hne,
        Bool.false_eq_true, if_false]
      rw [show splitWsAux (joinTokens (t2 :: ts2)) [] = splitWs (joinTokens (t2 :: ts2)) from rfl,
        ih (fun u hu => h u (List.mem_cons_of_mem t hu))]
      simp



theorem digitVal_digitChar (d : ℕ) (hd : d < 10) :
    digitVal (digitChar d) = some d := by
  interval_cases d <;> decide

theorem digitChar_good (d : ℕ) (hd : d < 10) :
    isPyWhitespace (digitChar d) = false ∧ isStripChar (digitChar d) = false ∧
      digitChar d ≠ '-' := by
  interval_cases d <;> exact ⟨rfl, rfl, by decide⟩

theorem natToChars_digits (n : ℕ) :
    ∀ c ∈ natToChars n, ∃ d, d < 10 ∧ c = digitChar d := by
  induction n using Nat.strong_induction_on with
  | _ n ih =>
    intro c hc
    rw [natToChars] at hc
    by_cases h : n < 10
    · simp only [h, dif_pos] at hc
      simp only [List.mem_singleton] at hc
      exact ⟨n, h, hc⟩
    · simp only [h, dif_neg, not_false_iff, List.mem_append, List.mem_singleton] at hc
      rcases hc with hc | hc
      · exact ih (n / 10) (Nat.div_lt_self (by omega) (by omega)) c hc
      · exact ⟨n % 10, Nat.mod_lt n (by omega), hc⟩

theorem natToChars_ne_nil (n : ℕ) : natToChars n ≠ [] := by
  rw [natToChars]
  by_cases h : n < 10 <;> simp [h]

theorem parseNatAux_append (l1 l2 : List Char) (acc : ℕ) :
    parseNatAux (l1 ++ l2) acc = (parseNatAux l1 acc).bind (fun a => parseNatAux l2 a) := by
  induction l1 generalizing acc with
  | nil => simp [parseNatAux]
  | cons c l1 ih =>
    simp only [List.cons_append, parseNatAux]
    cases digitVal c with
    | none => rfl
    | some d => exact ih _

theorem parseNatAux_natToChars (n : ℕ) : parseNatAux (natToChars n) 0 = some n := by
  induction n using Nat.strong_induction_on with
  | _ n ih =>
    rw [natToChars]
    by_cases h : n < 10
    · simp [h, parseNatAux, digitVal_digitChar n h]
    · simp only [h, dif_neg, not_false_iff]
      rw [parseNatAux_append, ih (n / 10) (Nat.div_lt_self (by omega) (by omega))]
      simp only [Option.bind_some, parseNatAux, digitVal_digitChar (n % 10) (Nat.mod_lt n (by omega))]
      exact congrArg some (by omega)

theorem intToChars_ne_nil (z : ℤ) : intToChars z ≠ [] := by
  unfold intToChars
  by_cases h : z < 0 <;> simp [h, natToChars_ne_nil]

theorem intToChars_good (z : ℤ) :
    ∀ c ∈ intToChars z, isPyWhitespace c = false ∧ isStripChar c = false := by
  intro c hc
  unfold intToChars at hc
  by_cases h : z < 0
  · simp only [h, if_true, List.mem_cons] at hc
    rcases hc with hc | hc
    · subst hc; exact ⟨rfl, rfl⟩
    · obtain ⟨d, hd, rfl⟩ := natToChars_digits _ c hc
      exact ⟨(digitChar_good d hd).1, (digitChar_good d hd).2.1⟩
  · simp only [h, if_false] at hc
    obtain ⟨d, hd, rfl⟩ := natToChars_digits _ c hc
    exact ⟨(digitChar_good d hd).1, (digitChar_good d hd).2.1⟩

theorem parseInt_intToChars (z : ℤ) : parseInt (intToChars z) = some z := by
  by_cases h : z < 0
  · have hz : intToChars z = '-' :: natToChars z.natAbs := by simp [intToChars, h]
    rw [hz]
    have hne : (natToChars z.natAbs).isEmpty = false := by
      simp [List.isEmpty_iff, natToChars_ne_nil]
    simp [parseInt, hne, parseNatAux_natToChars, Int.ofNat_natAbs_of_nonpos (le_of_lt h)]
  · have hz : intToChars z = natToChars z.toNat := by simp [intToChars, h]
    rw [hz]
    obtain ⟨c, rest, hcr⟩ := List.exists_cons_of_ne_nil (natToChars_ne_nil z.toNat)
    have hcmem : c ∈ natToChars z.toNat := by rw [hcr]; exact List.mem_cons_self c rest
    obtain ⟨d, hd, rfl⟩ := natToChars_digits _ c hcmem
    rw [hcr]
    simp only [parseInt, (digitChar_good d hd).2.2, if_false]
    rw [← hcr, parseNatAux_natToChars]
    simp [Int.toNat_of_nonneg (not_lt.mp h)]

theorem joinTokens_chars (toks : List (List Char)) :
    ∀ c ∈ joinTokens toks, c = ' ' ∨ ∃ t ∈ toks, c ∈ t := by
  induction toks with
  | nil => intro c hc; simp [joinTokens] at hc
  | cons t ts ih =>
    intro c hc
    cases ts with
    | nil =>
      simp only [joinTokens] at hc
      exact Or.inr ⟨t, List.mem_cons_self t [], hc⟩
    | cons t2 ts2 =>
      have hj : joinTokens (t :: t2 :: ts2) = t ++ ' ' :: joinTokens (t2 :: ts2) := by
        simp [joinTokens]
      rw [hj, List.mem_append, List.mem_cons] at hc
      rcases hc with hc | hc | hc
      · exact Or.inr ⟨t, List.mem_cons_self t _, hc⟩
      · exact Or.inl hc
      · rcases ih c hc with h1 | ⟨u, hu, hcu⟩
        · exact Or.inl h1
        · exact Or.inr ⟨u, List.mem_cons_of_mem t hu, hcu⟩

theorem dropWhile_all_false (p : Char → Bool) (l : List Char)
    (h : ∀ c ∈ l, p c = false) : List.dropWhile p l = l := by
  cases l with
  | nil => rfl
  | cons a t =>
    rw [List.dropWhile_cons, h a (List.mem_cons_self a t)]
    simp

theorem stripBrackets_wrap (inner : List Char)
    (h : ∀ c ∈ inner, isStripChar c = false) :
    stripBrackets ('[' :: inner ++ [']']) = inner := by
  cases inner with
  | nil => decide
  | cons c rest =>
    have hc : isStripChar c = false := h c (List.mem_cons_self c rest)
    unfold stripBrackets
    have h1 : List.dropWhile isStripChar ('[' :: (c :: rest) ++ [']']) =
        (c :: rest) ++ [']'] := by
      rw [show ('[' :: (c :: rest) ++ [']']) = '[' :: ((c :: rest) ++ [']']) from rfl]
      rw [List.dropWhile_cons]
      simp only [show isStripChar '[' = true from rfl, if_true]
      rw [List.cons_append, List.dropWhile_cons, hc]
      simp
    rw [h1]
    have h2 : ((c :: rest) ++ [']']).reverse = ']' :: (c :: rest).reverse := by simp
    rw [h2, List.dropWhile_cons]
    simp only [show isStripChar ']' = true from rfl, if_true]
    rw [dropWhile_all_false isStripChar (c :: rest).reverse
      (fun a ha => h a (List.mem_reverse.mp ha))]
    rw [List.reverse_reverse]

theorem mapTokens_map_intToChars (xs : List ℤ) :
    mapTokens (xs.map intToChars) = some xs := by
  induction xs with
  | nil => rfl
  | cons z zs ih =>
    simp only [List.map_cons, mapTokens, parseInt_intToChars, ih]

theorem clean_solution_encode (xs : List ℤ) :
    clean_solution (encodeSolution xs) = some xs := by
  unfold clean_solution encodeSolution
  rw [stripBrackets_wrap _ (fun c hc => by
    rcases joinTokens_chars _ c hc with rfl | ⟨t, ht, hct⟩
    · rfl
    · obtain ⟨z, hz, rfl⟩ := List.mem_map.mp ht
      exact (intToChars_good z c hct).2)]
  rw [splitWs_joinTokens _ (fun t ht => by
    obtain ⟨z, hz, rfl⟩ := List.mem_map.mp ht
    exact ⟨intToChars_ne_nil z, fun c hc => (intToChars_good z c hc).1⟩)]
  exact mapTokens_map_intToChars xs

theorem mapTokens_sound (ts : List (List Char)) (xs : List ℤ)
    (h : mapTokens ts = some xs) :
    xs.length = ts.length ∧
      ∀ i (hi : i < xs.length) (hti : i < ts.length),
        parseInt (ts.get ⟨i, hti⟩) = some (xs.get ⟨i, hi⟩) := by
  induction ts generalizing xs with
  | nil =>
    simp only [mapTokens, Option.some_inj] at h
    subst h
    exact ⟨rfl, fun i hi hti => absurd hi (by simp)⟩
  | cons t ts ih =>
    simp only [mapTokens] at h
    cases hp : parseInt t with
    | none => rw [hp] at h; exact absurd h (by simp)
    | some z =>
      rw [hp] at h
      cases hm : mapTokens ts with
      | none => rw [hm] at h; exact absurd h (by simp)
      | some zs =>
        rw [hm] at h
        simp only [Option.some_inj] at h
        subst h
        obtain ⟨hlen, hpt⟩ := ih zs hm
        refine ⟨by simp [hlen], fun i hi hti => ?_⟩
        cases i with
        | zero => simpa using hp
        | succ j =>
          simp only [List.get_cons_succ]
          exact hpt j (by simpa using hi) (by simpa using hti)

/-! ## Claims -/

/-- C7: for every valid bracketed permutation string (one `clean_solution`
accepts, returning `xs` from its `n` tokens), the parser returns exactly
`n` integers, the `i`-th output being the parse of the `i`-th token
(order preserved), and re-encoding the result into the same bracketed
space-separated textual form and parsing it again yields the identical
sequence. -/
theorem c7_clean_solution_round_trip (s : List Char) (xs : List ℤ)
    (h : clean_solution s = some xs) :
    xs.length = (splitWs (stripBrackets s)).length ∧
    (∀ i (hi : i < xs.length) (hti : i < (splitWs (stripBrackets s)).length),
      parseInt ((splitWs (stripBrackets s)).get ⟨i, hti⟩) = some (xs.get ⟨i, hi⟩)) ∧
    clean_solution (encodeSolution xs) = some xs := by
  obtain ⟨hlen, hpt⟩ := mapTokens_sound _ xs h
  exact ⟨hlen, hpt, clean_solution_encode xs⟩

/-- Witness for C7 at the spec's example string `"[1 5 19 9 15]"`. -/
theorem c7_clean_solution_round_trip_witness :
    ([1, 5, 19, 9, 15] : List ℤ).length =
        (splitWs (stripBrackets "[1 5 19 9 15]".toList)).length ∧
    (∀ i (hi : i < ([1, 5, 19, 9, 15] : List ℤ).length)
        (hti : i < (splitWs (stripBrackets "[1 5 19 9 15]".toList)).length),
      parseInt ((splitWs (stripBrackets "[1 5 19 9 15]".toList)).get ⟨i, hti⟩) =
        some (([1, 5, 19, 9, 15] : List ℤ).get ⟨i, hi⟩)) ∧
    clean_solution (encodeSolution [1, 5, 19, 9, 15]) = some [1, 5, 19, 9, 15] :=
  c7_clean_solution_round_trip "[1 5 19 9 15]".toList [1, 5, 19, 9, 15] (by decide)

/-- C8: `load_optimal_solution` returns the not-found result rather than
raising, and prints a console diagnostic, both when the `.sln` file is
absent (`FileNotFoundError` handler) and when its numeric content is
malformed (`ValueError` handler, for a file that reaches the parsing
stage, i.e. has at least two lines). -/
theorem c8_lookup_not_found_logged (file : Option (List (List Char)))
    (h : file = none ∨
      ∃ lines, file = some lines ∧ 2 ≤ lines.length ∧ parseSlnLines lines = none) :
    (load_optimal_solution file).result = none ∧
    (load_optimal_solution file).logged = true := by
  rcases h with rfl | ⟨lines, rfl, hlen, hbad⟩
  · exact ⟨rfl, rfl⟩
  · have h2 : ¬ (lines.length < 2) := by omega
    simp [load_optimal_solution, h2, hbad]

/-- Witness for C8 at a present two-line file whose first line holds the
non-numeric token `x`. -/
theorem c8_lookup_not_found_logged_witness :
    (load_optimal_solution (some ["3 x".toList, "0 1 2".toList])).result = none ∧
    (load_optimal_solution (some ["3 x".toList, "0 1 2".toList])).logged = true :=
  c8_lookup_not_found_logged _ (Or.inr ⟨_, rfl, by decide, by decide⟩)

/-- C10: a best-known file that exists but has fewer than two lines makes
`load_optimal_solution` return `None` without printing any diagnostic,
whatever the first line holds. -/
theorem c10_short_sln_silent_none (lines : List (List Char))
    (h : lines.length < 2) :
    load_optimal_solution (some lines) = { result := none, logged := false } := by
  simp [load_optimal_solution, h]

/-- Witness for C10 at a one-line file whose single line is a well-formed
`"size optimal_value"` pair. -/
theorem c10_short_sln_silent_none_witness :
    load_optimal_solution (some ["2 200".toList]) =
      { result := none, logged := false } :=
  c10_short_sln_silent_none ["2 200".toList] (by decide)

/-- C1 (code bug): with an input table whose only record names an
instance that has no best-known `.sln` file, `analyze_qap_results` does
NOT complete with the gap field absent — the tuple unpacking on line 61
of src/plots2.py receives `None` and raises `TypeError`, aborting the
whole run before any chart is rendered.  This theorem evaluates the
model at that failing input. -/
theorem c1_missing_best_known_aborts_run :
    analyze_qap_results (fun _ => none)
      [{ instName := "unknownX", solver := "Random", initialFitness := 300,
         finalFitness := 250, evaluations := 1000, timeMs := 5, solution := [] }] =
      Except.error () := rfl

/-- C2 (counterexample): the throughput computation
`Evaluations / (TimeMs / 1000)` adds no epsilon to its denominator; for a
record with evaluation count 5 and elapsed time exactly zero milliseconds
it yields `+inf`, not a finite value.  (No efficiency metric is computed
anywhere in src/plots2.py.) -/
theorem c2_throughput_zero_time_not_finite :
    evalsPerSecond 5 0 = PFloat.inf true ∧
    (∀ q : ℚ, evalsPerSecond 5 0 ≠ PFloat.fin q) := by
  have h : evalsPerSecond 5 0 = PFloat.inf true := by
    norm_num [evalsPerSecond, pdiv]
  exact ⟨h, fun q hq => by rw [h] at hq; exact PFloat.noConfusion hq⟩

/-- C2 (amended): the throughput computation uses no epsilon and never
raises; for elapsed time > 0 and evaluation count ≥ 0 it is finite and
non-negative, while at elapsed time = 0 it is `+inf` or NaN (see the
counterexample). -/
theorem c2_throughput_amended (evaluations timeMs : ℚ)
    (hev : 0 ≤ evaluations) (ht : 0 < timeMs) :
    evalsPerSecond evaluations timeMs = PFloat.fin (evaluations / (timeMs / 1000)) ∧
    0 ≤ evaluations / (timeMs / 1000) := by
  have h1 : (0 : ℚ) < timeMs / 1000 := div_pos ht (by norm_num)
  refine ⟨?_, div_nonneg hev (le_of_lt h1)⟩
  simp [evalsPerSecond, pdiv, ne_of_gt h1]

/-- Witness for the amended C2 at evaluations 5, elapsed 10 ms. -/
theorem c2_throughput_amended_witness :
    evalsPerSecond 5 10 = PFloat.fin (5 / (10 / 1000)) ∧
    (0 : ℚ) ≤ 5 / (10 / 1000) :=
  c2_throughput_amended 5 10 (by norm_num) (by norm_num)

/-- C3 (counterexample): `main` invokes the named chart outputs as plain
sequential calls with no per-chart exception handling, so when the first
output raises, the second is never attempted — not `[true, true]` as the
claim requires. -/
theorem c3_chart_failure_not_isolated :
    chartAttempts [Except.error "boom", Except.ok ()] = [true, false] ∧
    chartAttempts [Except.error "boom", Except.ok ()] ≠ [true, true] :=
  ⟨rfl, by decide⟩

/-- C3 (amended): an exception while producing one named chart output is
not caught; every output after the raising one is never attempted. -/
theorem c3_charts_after_failure_not_attempted
    (charts : List (Except String Unit)) (i j : ℕ) (e : String)
    (hi : charts[i]? = some (Except.error e)) (hij : i < j)
    (hj : j < charts.length) :
    (chartAttempts charts)[j]? = some false := by
  induction charts generalizing i j with
  | nil => simp at hj
  | cons c rest ih =>
    cases c with
    | ok u =>
      cases i with
      | zero => simp at hi
      | succ i2 =>
        cases j with
        | zero => omega
        | succ j2 =>
          show (true :: chartAttempts rest)[j2 + 1]? = some false
          rw [List.getElem?_cons_succ]
          exact ih i2 j2 (by simpa using hi) (by omega) (by simpa using hj)
    | error e2 =>
      cases j with
      | zero => omega
      | succ j2 =>
        show (true :: rest.map (fun _ => false))[j2 + 1]? = some false
        rw [List.getElem?_cons_succ, List.getElem?_map,
          List.getElem?_eq_getElem (by simpa using hj)]
        rfl

/-- Witness for the amended C3: the second of three outputs raises and
the third is not attempted. -/
theorem c3_charts_after_failure_not_attempted_witness :
    (chartAttempts [Except.ok (), Except.error "x", Except.ok ()])[2]? = some false :=
  c3_charts_after_failure_not_attempted [Except.ok (), Except.error "x", Except.ok ()]
    1 2 "x" rfl (by decide) (by decide)

/-- C4: when the whole lookup loop succeeds (so `analyze_qap_results`
returns rows at all), every record whose instance resolves to an optimal
value > 0 gets `GapToBest` exactly equal to
`(final - optimal) / optimal * 100` — exact rational equality, hence
within any floating-point tolerance. -/
theorem c4_gap_to_best_formula (slnFile : String → Option (List (List Char)))
    (df : List RunRecord) (r : RunRecord) (i : ℕ) (opt : ℤ) (perm : List ℤ)
    (hr : df[i]? = some r)
    (hl : (load_optimal_solution (slnFile r.instName)).result = some (opt, perm))
    (hopt : 0 < opt)
    (hall : (uniqueList (df.map RunRecord.instName)).all
      (fun j => ((load_optimal_solution (slnFile j)).result).isSome) = true) :
    ∃ rows, analyze_qap_results slnFile df = Except.ok rows ∧
      ∃ d, rows[i]? = some d ∧
        d.gapToBest = PFloat.fin ((r.finalFitness - (opt : ℚ)) / (opt : ℚ) * 100) := by
  have hok : analyze_qap_results slnFile df =
      Except.ok (df.map (deriveRow (fun n =>
        (((load_optimal_solution (slnFile n)).result).map Prod.fst).getD 0))) := by
    simp [analyze_qap_results, hall]
  refine ⟨_, hok, deriveRow (fun n =>
      (((load_optimal_solution (slnFile n)).result).map Prod.fst).getD 0) r, ?_, ?_⟩
  · rw [List.getElem?_map, hr]
    rfl
  · unfold deriveRow gapToBestCalc
    simp only [hl, Option.map_some, Option.getD_some]
    have hne : (opt : ℚ) ≠ 0 := Int.cast_ne_zero.mpr (ne_of_gt hopt)
    simp [pdiv, pscale, hne]

/-- Witness for C4: one record on instance `tai20a` with final fitness
250 and best-known file content `"2 200"` / `"0 1"`; the gap is
`(250 - 200)/200*100`. -/
theorem c4_gap_to_best_formula_witness :
    ∃ rows, analyze_qap_results (fun _ => some ["2 200".toList, "0 1".toList])
        [⟨"tai20a", "Random", 300, 250, 1000, 5, []⟩] = Except.ok rows ∧
      ∃ d, rows[0]? = some d ∧
        d.gapToBest = PFloat.fin ((250 - ((200 : ℤ) : ℚ)) / ((200 : ℤ) : ℚ) * 100) :=
  c4_gap_to_best_formula (fun _ => some ["2 200".toList, "0 1".toList])
    [⟨"tai20a", "Random", 300, 250, 1000, 5, []⟩]
    ⟨"tai20a", "Random", 300, 250, 1000, 5, []⟩ 0 200 [0, 1]
    rfl (by decide) (by decide) (by decide)

/-- C6: for every record with initial fitness > 0, the derived
improvement percentage equals `(initial - final) / initial * 100`. -/
theorem c6_improvement_formula (initial final : ℚ) (h : 0 < initial) :
    improvementPercent initial final =
      PFloat.fin ((initial - final) / initial * 100) := by
  simp [improvementPercent, pdiv, pscale, ne_of_gt h]

/-- Witness for C6 at the spec's example `initial = 300`, `final = 250`. -/
theorem c6_improvement_formula_witness :
    improvementPercent 300 250 = PFloat.fin ((300 - 250) / 300 * 100) :=
  c6_improvement_formula 300 250 (by norm_num)

/-- C5 (counterexample): a record with initial fitness 0 and final
fitness 10 gets improvement `-inf`, not an "undefined" sentinel, and
`-inf` is NOT excluded from the `(Instance, Solver)` group's mean: the
group mean itself becomes `-inf` (exclusion would leave an empty group,
i.e. NaN). -/
theorem c5_zero_initial_not_excluded :
    improvementPercent 0 10 = PFloat.inf false ∧
    meanImprovementForGroup
      [{ instName := "tai20a", solver := "Random", initialFitness := 0,
         finalFitness := 10, evaluations := 1, timeMs := 1, solution := [],
         gapToBest := PFloat.nan, improvementPercent := improvementPercent 0 10,
         evalsPerSecond := PFloat.fin 1000 }] "tai20a" "Random" = PFloat.inf false ∧
    PFloat.inf false ≠ PFloat.nan := by
  have h1 : improvementPercent 0 10 = PFloat.inf false := by
    norm_num [improvementPercent, pdiv, pscale]
  have h2 : meanImprovementForGroup
      [{ instName := "tai20a", solver := "Random", initialFitness := 0,
         finalFitness := 10, evaluations := 1, timeMs := 1, solution := [],
         gapToBest := PFloat.nan, improvementPercent := improvementPercent 0 10,
         evalsPerSecond := PFloat.fin 1000 }] "tai20a" "Random" =
      pandasMean [improvementPercent 0 10] := rfl
  rw [h2, h1]
  exact ⟨rfl, rfl, by decide⟩

/-- C5 (amended): with initial fitness 0 the improvement computation does
not crash: it yields NaN when final fitness is also 0 (and NaN IS skipped
by the group mean), but yields `-inf` when final fitness is positive, and
`-inf` is included in — and propagates into — the group mean. -/
theorem c5_zero_initial_amended (f : ℚ) (hf : 0 < f) :
    improvementPercent 0 f = PFloat.inf false ∧
    pandasMean [improvementPercent 0 f] = PFloat.inf false ∧
    improvementPercent 0 0 = PFloat.nan ∧
    pandasMean [improvementPercent 0 0] = PFloat.nan := by
  have ha : f ≠ 0 := hf.ne'
  have hb : ¬ (f < 0) := by linarith
  have h1 : improvementPercent 0 f = PFloat.inf false := by
    simp [improvementPercent, pdiv, pscale, ha, hb]
  have h2 : improvementPercent 0 0 = PFloat.nan := by
    norm_num [improvementPercent, pdiv, pscale]
  exact ⟨h1, by rw [h1]; rfl, h2, by rw [h2]; rfl⟩

/-- Witness for the amended C5 at final fitness 10. -/
theorem c5_zero_initial_amended_witness :
    improvementPercent 0 10 = PFloat.inf false ∧
    pandasMean [improvementPercent 0 10] = PFloat.inf false ∧
    improvementPercent 0 0 = PFloat.nan ∧
    pandasMean [improvementPercent 0 0] = PFloat.nan :=
  c5_zero_initial_amended 10 (by norm_num)

/-- C9: when a metric is constant across all of an instance's rows (so
its max equals its min), the combined-chart normalization takes the
guarded branch and maps every value `v` to `v / max` — `pdiv`, which
never raises (`0 / 0` is NaN, as in pandas). -/
theorem c9_normalize_constant_fallback (xs : List ℚ) (c : ℚ) (hne : xs ≠ [])
    (hc : ∀ v ∈ xs, v = c) :
    seriesMin xs = c ∧ seriesMax xs = c ∧
    normalizeValues xs = xs.map (fun v => pdiv v (seriesMax xs)) := by
  obtain ⟨x, rest, rfl⟩ := List.exists_cons_of_ne_nil hne
  have hx : x = c := hc x (List.mem_cons_self x rest)
  have hmin : ∀ l : List ℚ, (∀ v ∈ l, v = c) → l.foldl min c = c := by
    intro l
    induction l with
    | nil => intro _; rfl
    | cons a t iht =>
      intro hl
      have ha : a = c := hl a (List.mem_cons_self a t)
      simp only [List.foldl_cons, ha, min_self]
      exact iht (fun v hv => hl v (List.mem_cons_of_mem a hv))
  have hmax : ∀ l : List ℚ, (∀ v ∈ l, v = c) → l.foldl max c = c := by
    intro l
    induction l with
    | nil => intro _; rfl
    | cons a t iht =>
      intro hl
      have ha : a = c := hl a (List.mem_cons_self a t)
      simp only [List.foldl_cons, ha, max_self]
      exact iht (fun v hv => hl v (List.mem_cons_of_mem a hv))
  have hrest : ∀ v ∈ rest, v = c := fun v hv => hc v (List.mem_cons_of_mem x hv)
  have h1 : seriesMin (x :: rest) = c := by
    simp only [seriesMin, hx]; exact hmin rest hrest
  have h2 : seriesMax (x :: rest) = c := by
    simp only [seriesMax, hx]; exact hmax rest hrest
  refine ⟨h1, h2, ?_⟩
  unfold normalizeValues
  rw [h1, h2]
  simp [lt_irrefl]

/-- Witness for C9 at the constant column `[5, 5]`. -/
theorem c9_normalize_constant_fallback_witness :
    seriesMin [(5 : ℚ), 5] = 5 ∧ seriesMax [(5 : ℚ), 5] = 5 ∧
    normalizeValues [(5 : ℚ), 5] =
      ([(5 : ℚ), 5]).map (fun v => pdiv v (seriesMax [(5 : ℚ), 5])) :=
  c9_normalize_constant_fallback [5, 5] 5 (by simp) (by simp)

end QAP
